import Mathlib

/-!
Shallow embedding of the Sainarasimhan/Logger repository (Go).

The repository has two source files:
  * `src/log.go` (package `log`): the current string-level, cumulative-ladder
    logger.  Embedded in namespace `log` below.
  * `src/bkp/log1/log1.go` (package `log`, superseded): the older integer-level
    threshold logger.  Embedded in namespace `log1` below.

The Go code stores *function values* in the three dispatch slots; the only two
values ever stored are the package-level `NoOpFn` and the bound method
`l.logWrite`, so the slots are embedded as a two-constructor inductive type
(a defunctionalization).  Likewise the `PrintFunc` closures returned by the
entry points are one of two shapes (the no-op closure, or the printing closure
capturing the std logger and the precomputed level/context string), embedded as
a two-constructor inductive type whose `run` function gives the lines written.

Machine integers: `Flags` is a plain bit-flag integer passed through untouched,
and the legacy `level` is an `int8`; both are embedded as `Int` (no arithmetic
is ever performed on them, so overflow cannot arise).

The Go standard library pieces the code calls are modelled at the granularity
the claims need: `fmt`-style formatting (`Printf` / `Sprint`) is modelled by
`goSprintf` / `goSprint` below, covering the verb forms the claims exercise
(`%s`, `%d`, `%v`, `%%`, and Go's `%!v(MISSING)`, `%!(EXTRA ...)`,
`%!(NOVERB)` error annotations), without width/precision/flag parsing.  The
std logger's time-dependent line decorations (dates, times, file locations,
selected by `Flags`) are outside a shallow embedding; lines are rendered as
with `Flags = 0`, where the decoration segment is empty.
-/

namespace LoggerSpec

/-- A Go `interface\x7b\x7d` value handed to a formatting call.  The model covers
strings and ints, the two kinds the repository's claims and examples use. -/
inductive GoVal where
  | str (s : String)
  | int (n : Int)
deriving DecidableEq, Repr

/-- The Go type name of a value, as `fmt` prints it inside error annotations
such as `%!s(int=7)` and `%!(EXTRA string=x)`. -/
def GoVal.typeName : GoVal → String
  | .str _ => "string"
  | .int _ => "int"

/-- Default (`%v`) rendering of a value. -/
def GoVal.render : GoVal → String
  | .str s => s
  | .int n => toString n

/-- Whether the value is a Go string (used by `fmt.Sprint`'s spacing rule). -/
def GoVal.isStr : GoVal → Bool
  | .str _ => true
  | .int _ => false

/-- Formatting one verb character against one operand, Go `fmt` style:
`%s`/`%v` render strings as themselves, `%d` renders ints in decimal, and a
type/verb mismatch or unknown verb yields Go's `%!verb(type=value)` note. -/
def fmtVerb (c : Char) (v : GoVal) : String :=
  if c = 's' then
    match v with
    | .str s => s
    | .int n => "%!s(int=" ++ toString n ++ ")"
  else if c = 'd' then
    match v with
    | .int n => toString n
    | .str s => "%!d(string=" ++ s ++ ")"
  else if c = 'v' then
    v.render
  else
    "%!" ++ String.singleton c ++ "(" ++ v.typeName ++ "=" ++ v.render ++ ")"

/-- Characters Go emits for a `%` with no verb at the end of a format string. -/
def noVerbChars : List Char := "%!(NOVERB)".data

/-- Characters Go emits for a verb with no operand left. -/
def missingChars (c : Char) : List Char :=
  ("%!" ++ String.singleton c ++ "(MISSING)").data

/-- The scanning core of Go `fmt.Sprintf`: walks the format characters,
consuming one operand per verb, and returns the formatted characters together
with the operands left over. -/
def substAux : List Char → List GoVal → List Char × List GoVal
  | [], args => ([], args)
  | c :: rest, args =>
    if c = '%' then
      match rest with
      | [] => (noVerbChars, args)
      | c2 :: rest2 =>
        if c2 = '%' then
          let p := substAux rest2 args
          ('%' :: p.1, p.2)
        else
          match args with
          | [] =>
            let p := substAux rest2 []
            (missingChars c2 ++ p.1, p.2)
          | a :: as =>
            let p := substAux rest2 as
            ((fmtVerb c2 a).data ++ p.1, p.2)
    else
      let p := substAux rest args
      (c :: p.1, p.2)

/-- Go's trailing `%!(EXTRA type=value, ...)` note for unconsumed operands. -/
def extraChars (args : List GoVal) : List Char :=
  match args with
  | [] => []
  | _ =>
    ("%!(EXTRA " ++
      String.intercalate ", " (args.map fun v => v.typeName ++ "=" ++ v.render) ++
      ")").data

/-- Model of Go `fmt.Sprintf`: scan the format string against the operands,
then append the `EXTRA` note for any operands left unconsumed. -/
def goSprintf (format : String) (args : List GoVal) : String :=
  String.mk ((substAux format.data args).1 ++ extraChars (substAux format.data args).2)

/-- Model of Go `fmt.Sprint`: operands rendered in default format and
concatenated, with a space added between two operands when neither is a
string. -/
def goSprint : List GoVal → String
  | [] => ""
  | [v] => v.render
  | v1 :: v2 :: rest =>
    v1.render ++ (if v1.isStr || v2.isStr then "" else " ") ++ goSprint (v2 :: rest)

/-- `true` when no `%` in the character list starts an unfinished verb: every
`%` is followed by at least one more character (its verb or a second `%`).
A format string violating this makes Go emit `%!(NOVERB)`, merging with
whatever text is appended after the format string. -/
def noLonePct : List Char → Bool
  | [] => true
  | c :: rest =>
    if c = '%' then
      match rest with
      | [] => false
      | _ :: rest2 => noLonePct rest2
    else
      noLonePct rest

/-- Model of Go `strings.Join(ctx, "|")`, as `logWrite` uses it. -/
def joinBar : List String → String
  | [] => ""
  | [s] => s
  | s :: rest => s ++ "|" ++ joinBar rest

example : goSprintf "started %s" [.str "job1"] = "started job1" := by decide
example : goSprintf "val=%d" [.int 7] = "val=7" := by decide
example : goSprintf "INF[%d]<m>" [] = "INF[%!d(MISSING)]<m>" := by decide
example : goSprintf "m" [.str "x"] = "m%!(EXTRA string=x)" := by decide
example : goSprintf "100%" [] = "100%!(NOVERB)" := by decide
example : goSprintf "a%%b" [] = "a%b" := by decide
example : goSprint [.str "shutdown"] = "shutdown" := by decide
example : goSprint [.int 1, .int 2] = "1 2" := by decide
example : joinBar ["a", "b"] = "a|b" := by decide

/-- The state of a Go `std log.Logger` as the repository configures it:
the output destination (named; only `"stdout"` is ever used by `src/log.go`),
the line prefix handed to `stdlog.New` (already including the trailing space
the repository appends), and the decoration flags, passed through untouched.
The Go field is named `prefix`; it is called `pfx` here. -/
structure StdLogger where
  out : String
  pfx : String
  flag : Int
deriving DecidableEq, Repr

namespace log

/-- `LevelError` — Use to Print Errors (`src/log.go`). -/
def LevelError : String := "Error"

/-- `LevelInfo` — Use to Print Info (Default). -/
def LevelInfo : String := "Info"

/-- `LevelDebug` — Use to Print Debug messages. -/
def LevelDebug : String := "Debug"

/-- `ErrStr` — String representing Error in logs. -/
def ErrStr : String := "ER"

/-- `InfoStr` — String representing info in logs. -/
def InfoStr : String := "INF"

/-- `DebugStr` — String representing Debug in logs. -/
def DebugStr : String := "DBG"

/-- The flag constants copied from the std log package (`1 << iota`). -/
def Ldate : Int := 1

def Ltime : Int := 2

def Lmicroseconds : Int := 4

def Llongfile : Int := 8

def Lshortfile : Int := 16

def LUTC : Int := 32

/-- `LstdFlags = Ldate | Ltime` (bitwise or of disjoint bits, so `1 + 2`). -/
def LstdFlags : Int := 3

/-- `Cfg` — Configuration of Logger: level, prefix, flags. -/
structure Cfg where
  Level : String
  Prefix : String
  Flags : Int
deriving DecidableEq, Repr

/-- The function values the code ever stores in a dispatch slot of `Logger`:
the package-level `NoOpFn`, or the bound method `l.logWrite`
(defunctionalized; `Logger.Level` and `New` assign no other value). -/
inductive LoggerFunc where
  | NoOpFn
  | logWriteFn
deriving DecidableEq, Repr

/-- The closures an entry point can return (defunctionalized `PrintFunc`):
the inner closure of `NoOpFn`, which discards everything, or the closure
`logWrite` returns, capturing the std logger and the precomputed
level/context string. -/
inductive PrintFunc where
  | noOp
  | printfFn (lg : StdLogger) (pfx : String)
deriving DecidableEq, Repr

/-- Invoking a `PrintFunc` with a message template and arguments: the list of
lines written.  The no-op closure writes nothing; the printing closure calls
`l.log.Printf(prefix+"<"+format+">", args...)`, and the std logger writes one
line made of its own prefix followed by the formatted text (its time-dependent
decoration segment is empty for `Flags = 0`, the rendering modelled here). -/
def PrintFunc.run : PrintFunc → String → List GoVal → List String
  | .noOp, _, _ => []
  | .printfFn lg pfx, format, args =>
    [lg.pfx ++ goSprintf (pfx ++ "<" ++ format ++ ">") args]

/-- `Logger` — Logger with levels; uses standard logger internally.  The three
slots hold function values, here defunctionalized as `LoggerFunc`. -/
structure Logger where
  log : StdLogger
  errorFn : LoggerFunc
  debugFn : LoggerFunc
  infoFn : LoggerFunc
deriving DecidableEq, Repr

/-- `logWrite` — builds the `level[ctx|ctx]` string and returns the printing
closure (`src/log.go` lines 129–134).  The local Go variable is named
`prefix`. -/
def Logger.logWrite (l : Logger) (level : String) (ctx : List String) : PrintFunc :=
  .printfFn l.log (level ++ "[" ++ joinBar ctx ++ "]")

/-- Calling the function value held in a dispatch slot: `NoOpFn` returns the
discarding closure, the stored `l.logWrite` builds the printing closure. -/
def LoggerFunc.call (f : LoggerFunc) (l : Logger) (level : String) (ctx : List String) : PrintFunc :=
  match f with
  | .NoOpFn => .noOp
  | .logWriteFn => l.logWrite level ctx

/-- `Error` — Error logging: `return l.errorFn(ErrStr, ctx...)`. -/
def Logger.Error (l : Logger) (ctx : List String) : PrintFunc :=
  l.errorFn.call l ErrStr ctx

/-- `Info` — Info logging: `return l.infoFn(InfoStr, ctx...)`. -/
def Logger.Info (l : Logger) (ctx : List String) : PrintFunc :=
  l.infoFn.call l InfoStr ctx

/-- `Debug` — Debug logging: `return l.debugFn(DebugStr, ctx...)`. -/
def Logger.Debug (l : Logger) (ctx : List String) : PrintFunc :=
  l.debugFn.call l DebugStr ctx

/-- `Level` — Change Logger Level, a switch with fallthrough: `Debug` arms
`debugFn`, `infoFn` and `errorFn`; `Info` arms `infoFn` and `errorFn`;
`Error` arms `errorFn`; any other string matches no case and changes nothing.
The Go method mutates the receiver in place and returns the receiver pointer;
its state-passing translation returns the updated state. -/
def Logger.Level (l : Logger) (level : String) : Logger :=
  if level = LevelDebug then
    { l with debugFn := .logWriteFn, infoFn := .logWriteFn, errorFn := .logWriteFn }
  else if level = LevelInfo then
    { l with infoFn := .logWriteFn, errorFn := .logWriteFn }
  else if level = LevelError then
    { l with errorFn := .logWriteFn }
  else
    l

/-- `New` — creates the std logger on stdout with `c.Prefix+" "` and
`c.Flags`, sets all three slots to `NoOpFn`, then arms via `Level(c.Level)`. -/
def New (c : Cfg) : Logger :=
  let l : StdLogger := { out := "stdout", pfx := c.Prefix ++ " ", flag := c.Flags }
  let logger : Logger :=
    { log := l, errorFn := .NoOpFn, debugFn := .NoOpFn, infoFn := .NoOpFn }
  logger.Level c.Level

/-- `Fatal` — calls `stdlog.Fatal(args...)`, which prints `fmt.Sprint(args...)`
as a line (through the default std logger, whose time-dependent date/time
decorations are outside the embedding) and then calls `os.Exit(1)`.  Modelled
as the written line body and the process exit code.  It is a free function:
it reads no `Logger`, so no arming state can gate it. -/
def Fatal (args : List GoVal) : String × Nat :=
  (goSprint args, 1)

/-- State-passing translation of the `Error` method: the body
`return l.errorFn(ErrStr, ctx...)` assigns no field of the receiver, so the
receiver state comes back unchanged next to the returned closure. -/
def Logger.ErrorM (l : Logger) (ctx : List String) : Logger × PrintFunc :=
  (l, l.Error ctx)

/-- State-passing translation of the `Info` method (no field assignment). -/
def Logger.InfoM (l : Logger) (ctx : List String) : Logger × PrintFunc :=
  (l, l.Info ctx)

/-- State-passing translation of the `Debug` method (no field assignment). -/
def Logger.DebugM (l : Logger) (ctx : List String) : Logger × PrintFunc :=
  (l, l.Debug ctx)

/-- State-passing translation of invoking a returned closure while holding the
logger: the closure bodies (`NoOpFn`'s inner closure, and the closure built by
`logWrite`) assign no field of the `Logger` or of its std logger; they only
write lines. -/
def PrintFunc.runM (p : PrintFunc) (l : Logger) (format : String) (args : List GoVal) :
    Logger × List String :=
  (l, p.run format args)

end log

namespace log1

/-- Legacy integer levels (`iota`): `LevelError = 0`. -/
def LevelError : Int := 0

/-- `LevelInfo = 1`. -/
def LevelInfo : Int := 1

/-- `LevelDebug = 2`. -/
def LevelDebug : Int := 2

/-- Legacy bracket-padded tag for Error logs. -/
def ErrStr : String := "[Error]"

/-- Legacy tag for Info logs. -/
def InfoStr : String := "[Info ]"

/-- Legacy tag for Debug logs. -/
def DebugStr : String := "[Debug]"

/-- The closures the legacy entry points return: the no-op closure
(`NoOpLogger("", "")`), or the printing closure `logWrite` returns, capturing
the std logger and the precomputed level/context string.  (The legacy
`logWrite` passes the argument slice to `Printf` as a single operand — a
further quirk of the superseded file, irrelevant to the gating claims, so its
`run` semantics are not needed here.) -/
inductive PrintFunc where
  | noOp
  | printfFn (lg : StdLogger) (pfx : String)
deriving DecidableEq, Repr

/-- Legacy `Logger`: a std logger and an `int8` threshold level (embedded as
`Int`; the zero value 0 is what `New` leaves it at). -/
structure Logger where
  log : StdLogger
  level : Int
deriving DecidableEq, Repr

/-- Legacy `New(w, prefix, flag)`: builds the std logger, leaves `level` at
the zero value 0.  The writer is identified by name. -/
def New (w : String) (pfx : String) (flag : Int) : Logger :=
  { log := { out := w, pfx := pfx ++ " ", flag := flag }, level := 0 }

/-- Legacy `Level`: stores the integer level. -/
def Logger.Level (l : Logger) (level : Int) : Logger :=
  { l with level := level }

/-- Legacy `logWrite`: same `level[ctx|ctx]` prefix construction. -/
def Logger.logWrite (l : Logger) (level : String) (ctx : List String) : PrintFunc :=
  .printfFn l.log (level ++ "[" ++ LoggerSpec.joinBar ctx ++ "]")

/-- Legacy `Error`: gates on `l.level >= LevelError`. -/
def Logger.Error (l : Logger) (ctx : List String) : PrintFunc :=
  if l.level ≥ LevelError then l.logWrite ErrStr ctx else .noOp

/-- Legacy `Info`: gates on `l.level >= LevelError` — the comparison is
against `LevelError`, not `LevelInfo`, exactly as the source reads. -/
def Logger.Info (l : Logger) (ctx : List String) : PrintFunc :=
  if l.level ≥ LevelError then l.logWrite InfoStr ctx else .noOp

/-- Legacy `Debug`: gates on `l.level >= LevelError`, as the source reads. -/
def Logger.Debug (l : Logger) (ctx : List String) : PrintFunc :=
  if l.level ≥ LevelError then l.logWrite DebugStr ctx else .noOp

end log1

/-- Written from the spec's words (Emitted line format), for comparison with
the code's emission: the `Prefix` followed by a space, the level tag, the
contexts joined by `|` inside square brackets, then the message template with
placeholder substitution performed using the arguments, inside angle brackets
(the decoration segment ahead of it is empty with `Flags = 0`). -/
def specLineBody (P tag : String) (ctx : List String) (format : String)
    (args : List GoVal) : String :=
  P ++ " " ++ tag ++ "[" ++ joinBar ctx ++ "]" ++ "<" ++ goSprintf format args ++ ">"

/-- The spec's ladder invariant over the slot triple: the set of armed slots
is a prefix of [Error, Info, Debug]. -/
def armedLadder (l : log.Logger) : Prop :=
  (l.debugFn = .logWriteFn → l.infoFn = .logWriteFn ∧ l.errorFn = .logWriteFn) ∧
  (l.infoFn = .logWriteFn → l.errorFn = .logWriteFn)

instance (l : log.Logger) : Decidable (armedLadder l) := by
  unfold armedLadder
  infer_instance

/-! ### Helper lemmas on `Level` -/

namespace log

theorem level_debug_eq (l : Logger) :
    l.Level LevelDebug =
      { l with debugFn := .logWriteFn, infoFn := .logWriteFn, errorFn := .logWriteFn } := rfl

theorem level_info_eq (l : Logger) :
    l.Level LevelInfo = { l with infoFn := .logWriteFn, errorFn := .logWriteFn } := rfl

theorem level_error_eq (l : Logger) :
    l.Level LevelError = { l with errorFn := .logWriteFn } := rfl

theorem level_other_eq (l : Logger) (s : String)
    (h1 : s ≠ LevelDebug) (h2 : s ≠ LevelInfo) (h3 : s ≠ LevelError) :
    l.Level s = l := by
  unfold Logger.Level
  rw [if_neg h1, if_neg h2, if_neg h3]

/-- `Level` never changes the underlying std logger. -/
theorem level_log_eq (l : Logger) (s : String) : (l.Level s).log = l.log := by
  unfold Logger.Level
  split <;> try rfl
  split <;> try rfl
  split <;> rfl

end log

/-! ### Formatting lemmas for the emitted-line claims -/

theorem string_data_mk (l : List Char) : (String.mk l).data = l := rfl

theorem substAux_nil (args : List GoVal) : substAux [] args = ([], args) := rfl

theorem substAux_pct_nil (args : List GoVal) :
    substAux ['%'] args = (noVerbChars, args) := rfl

theorem substAux_pct_pct (rest2 : List Char) (args : List GoVal) :
    substAux ('%' :: '%' :: rest2) args
      = ('%' :: (substAux rest2 args).1, (substAux rest2 args).2) := rfl

theorem substAux_cons_ne (c : Char) (rest : List Char) (args : List GoVal)
    (hc : c ≠ '%') :
    substAux (c :: rest) args
      = (c :: (substAux rest args).1, (substAux rest args).2) := by
  rw [substAux.eq_def]
  simp only [if_neg hc]

theorem substAux_pct_verb_nil (c2 : Char) (rest2 : List Char) (hc : c2 ≠ '%') :
    substAux ('%' :: c2 :: rest2) []
      = (missingChars c2 ++ (substAux rest2 []).1, (substAux rest2 []).2) := by
  simp [substAux, hc]

theorem substAux_pct_verb_cons (c2 : Char) (rest2 : List Char) (a : GoVal)
    (as : List GoVal) (hc : c2 ≠ '%') :
    substAux ('%' :: c2 :: rest2) (a :: as)
      = ((fmtVerb c2 a).data ++ (substAux rest2 as).1, (substAux rest2 as).2) := by
  simp [substAux, hc]

theorem substAux_gt (args : List GoVal) : substAux ['>'] args = (['>'], args) := rfl

theorem noLonePct_cons_ne (c : Char) (rest : List Char) (hc : c ≠ '%') :
    noLonePct (c :: rest) = noLonePct rest := by
  rw [noLonePct.eq_def]
  simp only [if_neg hc]

/-- A verb-free segment of a format string passes through the scanner
verbatim, consuming no operand. -/
theorem substAux_append_of_no_pct (a : List Char) (h : ('%' : Char) ∉ a)
    (b : List Char) (args : List GoVal) :
    substAux (a ++ b) args
      = (a ++ (substAux b args).1, (substAux b args).2) := by
  induction a with
  | nil => simp [substAux_nil]
  | cons c a2 ih =>
    have hc : c ≠ '%' := by
      intro hcc
      exact h (hcc ▸ List.mem_cons_self c a2)
    have h2 : ('%' : Char) ∉ a2 := fun hm => h (List.mem_cons_of_mem c hm)
    rw [List.cons_append, substAux_cons_ne c (a2 ++ b) args hc, ih h2]
    simp

/-- Scanning `a ++ b` splits at the boundary when no `%` of `a` is left
dangling at its end: `b` is scanned against the operands `a` leaves over. -/
theorem substAux_append_clean (b : List Char) :
    ∀ (a : List Char) (args : List GoVal), noLonePct a = true →
    substAux (a ++ b) args
      = ((substAux a args).1 ++ (substAux b (substAux a args).2).1,
          (substAux b (substAux a args).2).2) := by
  intro a args h
  induction a, args using substAux.induct with
  | case1 args => simp [substAux_nil]
  | case2 args => simp [noLonePct] at h
  | case3 args rest2 ih =>
    have h2 : noLonePct rest2 = true := h
    rw [List.cons_append, List.cons_append, substAux_pct_pct,
      substAux_pct_pct rest2 args, ih h2]
    simp
  | case4 c2 rest2 hc ih =>
    have h2 : noLonePct rest2 = true := h
    rw [List.cons_append, List.cons_append,
      substAux_pct_verb_nil c2 (rest2 ++ b) hc,
      substAux_pct_verb_nil c2 rest2 hc, ih h2]
    simp
  | case5 c2 rest2 hc head as ih =>
    have h2 : noLonePct rest2 = true := h
    rw [List.cons_append, List.cons_append,
      substAux_pct_verb_cons c2 (rest2 ++ b) head as hc,
      substAux_pct_verb_cons c2 rest2 head as hc, ih h2]
    simp
  | case6 c rest args hc ih =>
    have h2 : noLonePct rest = true := by
      rwa [noLonePct_cons_ne c rest hc] at h
    rw [List.cons_append, substAux_cons_ne c (rest ++ b) args hc,
      substAux_cons_ne c rest args hc, ih h2]
    simp

/-- The formatted result of `prefix ++ "<" ++ format ++ ">"` is the prefix,
then `<`, then the formatted `format`, then `>`, provided the prefix holds no
`%`, the format string leaves no dangling `%`, and the operands are fully
consumed. -/
theorem goSprintf_wrap (pfx format : String) (args : List GoVal)
    (hp : ('%' : Char) ∉ pfx.data) (hf : noLonePct format.data = true)
    (ha : (substAux format.data args).2 = []) :
    goSprintf (pfx ++ "<" ++ format ++ ">") args
      = pfx ++ "<" ++ goSprintf format args ++ ">" := by
  have hA : ('%' : Char) ∉ pfx.data ++ ['<'] := by
    intro hm
    rcases List.mem_append.1 hm with hm | hm
    · exact hp hm
    · rw [List.mem_singleton] at hm
      exact absurd hm (by decide)
  have hdata : (pfx ++ "<" ++ format ++ ">").data
      = (pfx.data ++ ['<']) ++ (format.data ++ ['>']) := by
    have h1 : ("<" : String).data = ['<'] := rfl
    have h2 : (">" : String).data = ['>'] := rfl
    simp [String.data_append, h1, h2]
  have hq : substAux (format.data ++ ['>']) args
      = ((substAux format.data args).1 ++ ['>'], []) := by
    rw [substAux_append_clean ['>'] format.data args hf, ha, substAux_gt]
  have hout : substAux (pfx.data ++ ['<'] ++ (format.data ++ ['>'])) args
      = (pfx.data ++ ['<'] ++ ((substAux format.data args).1 ++ ['>']), []) := by
    rw [substAux_append_of_no_pct (pfx.data ++ ['<']) hA, hq]
  apply String.ext
  simp only [goSprintf, hdata, hout, string_data_mk, ha, String.data_append]
  simp [extraChars, List.append_assoc]

/-- Joining context strings with `|` introduces no `%`. -/
theorem joinBar_no_pct : ∀ (ctx : List String),
    (∀ s ∈ ctx, ('%' : Char) ∉ s.data) → ('%' : Char) ∉ (joinBar ctx).data
  | [], _ => by decide
  | [s], h => h s (List.mem_cons_self s [])
  | s :: t :: rest, h => by
    have hs := h s (List.mem_cons_self s (t :: rest))
    have h2 : ∀ x ∈ t :: rest, ('%' : Char) ∉ x.data :=
      fun x hx => h x (List.mem_cons_of_mem s hx)
    have ih := joinBar_no_pct (t :: rest) h2
    show ('%' : Char) ∉ (s ++ "|" ++ joinBar (t :: rest)).data
    simp only [String.data_append, List.mem_append, not_or]
    exact ⟨⟨hs, by decide⟩, ih⟩

/-- Invoking the closure built by `logWrite` on a logger whose std-logger
prefix came from construction with `Prefix = P`: the one emitted line is the
spec's format, provided the contexts hold no `%`, the template leaves no
dangling `%`, and the arguments are fully consumed. -/
theorem logWrite_run (l : log.Logger) (tag P : String) (ctx : List String)
    (format : String) (args : List GoVal)
    (hP : l.log.pfx = P ++ " ")
    (htag : ('%' : Char) ∉ tag.data)
    (hctx : ∀ s ∈ ctx, ('%' : Char) ∉ s.data)
    (hf : noLonePct format.data = true)
    (ha : (substAux format.data args).2 = []) :
    (l.logWrite tag ctx).run format args
      = [specLineBody P tag ctx format args] := by
  have hj := joinBar_no_pct ctx hctx
  have hpfx : ('%' : Char) ∉ (tag ++ "[" ++ joinBar ctx ++ "]").data := by
    simp only [String.data_append, List.mem_append, not_or]
    exact ⟨⟨⟨htag, by decide⟩, hj⟩, by decide⟩
  show [l.log.pfx ++ goSprintf ((tag ++ "[" ++ joinBar ctx ++ "]") ++ "<" ++ format ++ ">") args]
      = [specLineBody P tag ctx format args]
  rw [goSprintf_wrap (tag ++ "[" ++ joinBar ctx ++ "]") format args hpfx hf ha, hP]
  congr 1
  apply String.ext
  simp [specLineBody, String.data_append, List.append_assoc]

/-! ### C1 — cumulative arming law -/

/-- C1 (counterexample): the law as stated quantifies over every logger, but
`Level` only ever arms slots, never disarms.  Starting from a logger armed at
Debug, `Level("Info")` leaves `debugFn` armed, refuting "debugFn is active if
and only if L = Debug" at L = "Info". -/
theorem cumulative_arming_counterexample :
    ¬ ((((log.New ⟨log.LevelDebug, "p", 0⟩).Level log.LevelInfo).debugFn
          = log.LoggerFunc.logWriteFn)
        ↔ log.LevelInfo = log.LevelDebug) := by
  decide

/-- C1 (amended): for a logger whose three slots are all no-op (the state
`New` starts from), after `Level(L)` with L recognized, `errorFn` is armed for
every choice of L, `infoFn` is armed iff L is "Info" or "Debug", and `debugFn`
is armed iff L is "Debug". -/
theorem cumulative_arming_from_noop (l : log.Logger) (L : String)
    (hE : l.errorFn = .NoOpFn) (hI : l.infoFn = .NoOpFn) (hD : l.debugFn = .NoOpFn)
    (hL : L = log.LevelError ∨ L = log.LevelInfo ∨ L = log.LevelDebug) :
    (l.Level L).errorFn = .logWriteFn ∧
    ((l.Level L).infoFn = .logWriteFn ↔ (L = log.LevelInfo ∨ L = log.LevelDebug)) ∧
    ((l.Level L).debugFn = .logWriteFn ↔ L = log.LevelDebug) := by
  rcases hL with h | h | h <;> subst h
  · rw [log.level_error_eq]
    refine ⟨rfl, ?_, ?_⟩ <;>
      simp [hI, hD, log.LevelError, log.LevelInfo, log.LevelDebug]
  · rw [log.level_info_eq]
    refine ⟨rfl, ?_, ?_⟩ <;>
      simp [hI, hD, log.LevelInfo, log.LevelDebug]
  · rw [log.level_debug_eq]
    refine ⟨rfl, ?_, ?_⟩ <;> simp

/-- C1 witness: the amended law at a concrete all-no-op logger and L = "Info". -/
theorem cumulative_arming_from_noop_witness :
    ((log.New ⟨"bogus", "p", 0⟩).Level log.LevelInfo).errorFn = .logWriteFn ∧
    (((log.New ⟨"bogus", "p", 0⟩).Level log.LevelInfo).infoFn = .logWriteFn ↔
      (log.LevelInfo = log.LevelInfo ∨ log.LevelInfo = log.LevelDebug)) ∧
    (((log.New ⟨"bogus", "p", 0⟩).Level log.LevelInfo).debugFn = .logWriteFn ↔
      log.LevelInfo = log.LevelDebug) :=
  cumulative_arming_from_noop (log.New ⟨"bogus", "p", 0⟩) log.LevelInfo
    (by decide) (by decide) (by decide) (Or.inr (Or.inl rfl))

/-! ### C4 — unknown level at construction -/

/-- C4: a configuration whose `Level` is none of the three recognized strings
yields a logger with all three slots at `NoOpFn`, whose entry points all
return the discarding closure; construction signals no error (`New` is total). -/
theorem unknown_level_at_construction (c : log.Cfg)
    (h1 : c.Level ≠ log.LevelError) (h2 : c.Level ≠ log.LevelInfo)
    (h3 : c.Level ≠ log.LevelDebug) :
    (log.New c).errorFn = .NoOpFn ∧
    (log.New c).infoFn = .NoOpFn ∧
    (log.New c).debugFn = .NoOpFn ∧
    (∀ ctx : List String,
      (log.New c).Error ctx = .noOp ∧
      (log.New c).Info ctx = .noOp ∧
      (log.New c).Debug ctx = .noOp) := by
  have h : log.New c
      = { log := { out := "stdout", pfx := c.Prefix ++ " ", flag := c.Flags },
          errorFn := .NoOpFn, debugFn := .NoOpFn, infoFn := .NoOpFn } := by
    unfold log.New
    exact log.level_other_eq _ _ h3 h2 h1
  rw [h]
  exact ⟨rfl, rfl, rfl, fun ctx => ⟨rfl, rfl, rfl⟩⟩

/-- C4 witness: `New` with `Level = "bogus"` is fully silent. -/
theorem unknown_level_at_construction_witness :
    (log.New ⟨"bogus", "p", 0⟩).errorFn = .NoOpFn ∧
    (log.New ⟨"bogus", "p", 0⟩).infoFn = .NoOpFn ∧
    (log.New ⟨"bogus", "p", 0⟩).debugFn = .NoOpFn ∧
    (∀ ctx : List String,
      (log.New ⟨"bogus", "p", 0⟩).Error ctx = .noOp ∧
      (log.New ⟨"bogus", "p", 0⟩).Info ctx = .noOp ∧
      (log.New ⟨"bogus", "p", 0⟩).Debug ctx = .noOp) :=
  unknown_level_at_construction ⟨"bogus", "p", 0⟩ (by decide) (by decide) (by decide)

/-! ### C5 — unknown level on re-arm leaves state unchanged -/

/-- C5: for any logger in any arming state, `Level` with a string outside the
three recognized values matches no switch case and returns the logger
unchanged — no slot is modified. -/
theorem unknown_level_rearm (l : log.Logger) (s : String)
    (h1 : s ≠ log.LevelError) (h2 : s ≠ log.LevelInfo) (h3 : s ≠ log.LevelDebug) :
    l.Level s = l :=
  log.level_other_eq l s h3 h2 h1

/-- C5 witness: on a logger armed at Info, `Level("bogus")` changes nothing —
Error and Info stay armed, Debug stays no-op. -/
theorem unknown_level_rearm_witness :
    ((log.New ⟨"Info", "p", 0⟩).Level "bogus" = log.New ⟨"Info", "p", 0⟩) ∧
    (log.New ⟨"Info", "p", 0⟩).errorFn = .logWriteFn ∧
    (log.New ⟨"Info", "p", 0⟩).infoFn = .logWriteFn ∧
    (log.New ⟨"Info", "p", 0⟩).debugFn = .NoOpFn :=
  ⟨unknown_level_rearm (log.New ⟨"Info", "p", 0⟩) "bogus"
      (by decide) (by decide) (by decide),
    by decide, by decide, by decide⟩

/-! ### C7 — idempotence of `Level` -/

/-- C7: calling `Level` twice with the same string leaves the slots exactly as
one call does: each recognized case re-assigns the same function values, and
an unrecognized string changes nothing either time.  (The in-place mutation
and `return l` of the Go method are the state-passing reading of
`Logger.Level` returning the updated receiver state.) -/
theorem level_idempotent (l : log.Logger) (s : String) :
    (l.Level s).Level s = l.Level s := by
  by_cases hd : s = log.LevelDebug
  · subst hd; rw [log.level_debug_eq, log.level_debug_eq]
  · by_cases hi : s = log.LevelInfo
    · subst hi; rw [log.level_info_eq, log.level_info_eq]
    · by_cases he : s = log.LevelError
      · subst he; rw [log.level_error_eq, log.level_error_eq]
      · rw [log.level_other_eq l s hd hi he, log.level_other_eq l s hd hi he]

/-! ### C6 — ladder prefix invariant -/

theorem armedLadder_level (l : log.Logger) (s : String) (h : armedLadder l) :
    armedLadder (l.Level s) := by
  by_cases hd : s = log.LevelDebug
  · subst hd; rw [log.level_debug_eq]; exact ⟨fun _ => ⟨rfl, rfl⟩, fun _ => rfl⟩
  · by_cases hi : s = log.LevelInfo
    · subst hi; rw [log.level_info_eq]
      exact ⟨fun hD => ⟨rfl, rfl⟩, fun _ => rfl⟩
    · by_cases he : s = log.LevelError
      · subst he; rw [log.level_error_eq]
        exact ⟨fun hD => ⟨(h.1 hD).1, rfl⟩, fun _ => rfl⟩
      · rw [log.level_other_eq l s hd hi he]; exact h

theorem armedLadder_foldl (ss : List String) :
    ∀ l : log.Logger, armedLadder l → armedLadder (ss.foldl log.Logger.Level l) := by
  induction ss with
  | nil => exact fun l h => h
  | cons s ss ih => exact fun l h => ih (l.Level s) (armedLadder_level l s h)

/-- C6: every logger reachable by `New` followed by any finite sequence of
`Level` calls with arbitrary strings satisfies the ladder invariant: armed
slots form a prefix of [Error, Info, Debug] — Debug armed forces Info and
Error armed, Info armed forces Error armed. -/
theorem ladder_invariant_reachable (c : log.Cfg) (ss : List String) :
    armedLadder (ss.foldl log.Logger.Level (log.New c)) := by
  refine armedLadder_foldl ss (log.New c) ?_
  show armedLadder
    (({ log := { out := "stdout", pfx := c.Prefix ++ " ", flag := c.Flags },
        errorFn := .NoOpFn, debugFn := .NoOpFn,
        infoFn := .NoOpFn } : log.Logger).Level c.Level)
  refine armedLadder_level _ _ ⟨fun hD => ?_, fun hI => ?_⟩
  · simp at hD
  · simp at hI

/-! ### C3 — no-op purity -/

/-- C3: when a dispatch slot holds `NoOpFn`, the closure the corresponding
entry point returns writes nothing when invoked, whatever the message template
and argument list (mismatched placeholder/argument counts included). -/
theorem noop_purity (l : log.Logger) (ctx : List String) (format : String)
    (args : List GoVal) :
    (l.errorFn = .NoOpFn → (l.Error ctx).run format args = []) ∧
    (l.infoFn = .NoOpFn → (l.Info ctx).run format args = []) ∧
    (l.debugFn = .NoOpFn → (l.Debug ctx).run format args = []) := by
  refine ⟨fun h => ?_, fun h => ?_, fun h => ?_⟩
  · rw [log.Logger.Error, h]; rfl
  · rw [log.Logger.Info, h]; rfl
  · rw [log.Logger.Debug, h]; rfl

/-! ### C10 — entry points are read-only -/

/-- C10: in their state-passing translations, `Error`, `Info` and `Debug`
return the receiver unchanged, and invoking the returned closure leaves the
logger — its three slots and its std logger's destination, prefix and flags —
untouched as well; only `New` and `Level` build modified states. -/
theorem entry_points_read_only (l : log.Logger) (ctx : List String)
    (format : String) (args : List GoVal) :
    (l.ErrorM ctx).1 = l ∧ (l.InfoM ctx).1 = l ∧ (l.DebugM ctx).1 = l ∧
    ((l.Error ctx).runM l format args).1 = l ∧
    ((l.Info ctx).runM l format args).1 = l ∧
    ((l.Debug ctx).runM l format args).1 = l :=
  ⟨rfl, rfl, rfl, rfl, rfl, rfl⟩

/-! ### C8 — legacy-version divergence -/

/-- C8: in the superseded `bkp` implementation the `Info` and `Debug` methods
gate on `level >= LevelError` with `LevelError = 0` the lowest constant, so
every legacy logger at level ≥ LevelError gets writing closures from `Info`
and `Debug`; the new implementation armed at "Error" instead returns the
discarding closure from both — the two are not equivalent, exhibited at the
Error level with a concrete pair. -/
theorem legacy_divergence :
    log1.LevelError = 0 ∧
    log1.LevelError ≤ log1.LevelInfo ∧ log1.LevelError ≤ log1.LevelDebug ∧
    (∀ (l : log1.Logger) (ctx : List String), log1.LevelError ≤ l.level →
      l.Info ctx ≠ .noOp ∧ l.Debug ctx ≠ .noOp) ∧
    (∀ (c : log.Cfg), c.Level = log.LevelError → ∀ ctx : List String,
      (log.New c).Info ctx = .noOp ∧ (log.New c).Debug ctx = .noOp) ∧
    (((log1.New "stdout" "p" 0).Level log1.LevelError).Info ["c"] ≠ .noOp ∧
      (log.New ⟨log.LevelError, "p", 0⟩).Info ["c"] = .noOp) := by
  refine ⟨rfl, by decide, by decide, fun l ctx h => ?_, fun c hc ctx => ?_, by decide⟩
  · rw [log1.Logger.Info, log1.Logger.Debug, if_pos h, if_pos h]
    exact ⟨fun hcon => log1.PrintFunc.noConfusion hcon,
      fun hcon => log1.PrintFunc.noConfusion hcon⟩
  · have h : log.New c
        = { log := { out := "stdout", pfx := c.Prefix ++ " ", flag := c.Flags },
            errorFn := .logWriteFn, debugFn := .NoOpFn, infoFn := .NoOpFn } := by
      unfold log.New
      rw [hc, log.level_error_eq]
    rw [h]
    exact ⟨rfl, rfl⟩

/-- C8 witness: the divergence at a concrete legacy logger with level 0. -/
theorem legacy_divergence_witness :
    (log1.New "stdout" "p" 0).Info ["c"] ≠ log1.PrintFunc.noOp ∧
    (log1.New "stdout" "p" 0).Debug ["c"] ≠ log1.PrintFunc.noOp :=
  legacy_divergence.2.2.2.1 (log1.New "stdout" "p" 0) ["c"] (by decide)

/-! ### C2 — emitted line format -/

/-- C2 (counterexample): the whole string `level[ctx|ctx]<format>` is handed
to `Printf`, so a `%` inside a context string is read as a verb.  With
context `"%d"` and no arguments, the emitted line carries Go's
`%!d(MISSING)` note inside the bracket instead of the claimed literal
context, so the stated format is wrong for contexts containing `%`. -/
theorem emitted_line_format_counterexample :
    ((log.New ⟨"Info", "svc", 0⟩).Info ["%d"]).run "m" []
      ≠ [specLineBody "svc" log.InfoStr ["%d"] "m" []] := by
  decide

/-- C2 (amended): for a logger whose std-logger prefix came from construction
with `Prefix = P`, an active severity emits exactly one line of the claimed
shape — decorations (empty at `Flags = 0`), `P` and a space, the tag, the
contexts joined by `|` in call order inside square brackets, then the
template with substitution applied inside angle brackets — provided no
context string contains `%`, the template does not end in a dangling `%`,
and the template's verbs consume all the arguments. -/
theorem emitted_line_format (l : log.Logger) (P : String) (ctx : List String)
    (format : String) (args : List GoVal)
    (hP : l.log.pfx = P ++ " ")
    (hctx : ∀ s ∈ ctx, ('%' : Char) ∉ s.data)
    (hf : noLonePct format.data = true)
    (ha : (substAux format.data args).2 = []) :
    (l.errorFn = .logWriteFn →
      (l.Error ctx).run format args = [specLineBody P log.ErrStr ctx format args]) ∧
    (l.infoFn = .logWriteFn →
      (l.Info ctx).run format args = [specLineBody P log.InfoStr ctx format args]) ∧
    (l.debugFn = .logWriteFn →
      (l.Debug ctx).run format args = [specLineBody P log.DebugStr ctx format args]) := by
  refine ⟨fun h => ?_, fun h => ?_, fun h => ?_⟩
  · rw [log.Logger.Error, h]
    exact logWrite_run l log.ErrStr P ctx format args hP (by decide) hctx hf ha
  · rw [log.Logger.Info, h]
    exact logWrite_run l log.InfoStr P ctx format args hP (by decide) hctx hf ha
  · rw [log.Logger.Debug, h]
    exact logWrite_run l log.DebugStr P ctx format args hP (by decide) hctx hf ha

/-- C2 witness: the spec's own example — Prefix "svc", Flags 0, level Info,
context "req-42", template "started %s", argument "job1" — emits exactly
`svc INF[req-42]<started job1>`. -/
theorem emitted_line_format_witness :
    ((log.New ⟨"Info", "svc", 0⟩).Info ["req-42"]).run "started %s" [.str "job1"]
      = ["svc INF[req-42]<started job1>"] :=
  ((emitted_line_format (log.New ⟨"Info", "svc", 0⟩) "svc" ["req-42"]
      "started %s" [.str "job1"] (by decide) (by decide) (by decide)
      (by decide)).2.1 (by decide)).trans (by decide)

/-! ### C9 — Fatal bypass -/

/-- `fmt.Sprint` introduces no character beyond the operands' renderings and
the separating space. -/
theorem goSprint_no_char (c : Char) (hc : c ≠ ' ') :
    ∀ args : List GoVal, (∀ v ∈ args, c ∉ (GoVal.render v).data) →
      c ∉ (goSprint args).data
  | [], _ => by
    show c ∉ ("" : String).data
    simp
  | [v], h => h v (List.mem_cons_self v [])
  | v1 :: v2 :: rest, h => by
    have h1 := h v1 (List.mem_cons_self v1 (v2 :: rest))
    have h2 : ∀ v ∈ v2 :: rest, c ∉ (GoVal.render v).data :=
      fun v hv => h v (List.mem_cons_of_mem v1 hv)
    have ih := goSprint_no_char c hc (v2 :: rest) h2
    show c ∉ (GoVal.render v1 ++ (if v1.isStr || v2.isStr then "" else " ")
        ++ goSprint (v2 :: rest)).data
    simp only [String.data_append, List.mem_append, not_or]
    refine ⟨⟨h1, ?_⟩, ih⟩
    split
    · simp
    · intro hm
      have hsp : (" " : String).data = [' '] := rfl
      rw [hsp, List.mem_singleton] at hm
      exact hc hm

/-- C9: `Fatal` forwards its arguments to the std `Fatal`: the written line
is `fmt.Sprint` of the arguments — no level tag, no context bracket, no angle
wrapping is added (when the arguments themselves hold no `[` or `<`, neither
does the line) — and the process exit code is 1, non-zero.  `Fatal` reads no
`Logger`, so no `Level` arming state can gate it. -/
theorem fatal_bypass (args : List GoVal)
    (hb : ∀ v ∈ args, ('[' : Char) ∉ (GoVal.render v).data ∧
      ('<' : Char) ∉ (GoVal.render v).data) :
    (log.Fatal args).2 ≠ 0 ∧
    (log.Fatal args).1 = goSprint args ∧
    ('[' : Char) ∉ (log.Fatal args).1.data ∧
    ('<' : Char) ∉ (log.Fatal args).1.data := by
  refine ⟨Nat.one_ne_zero, rfl, ?_, ?_⟩
  · exact goSprint_no_char '[' (by decide) args (fun v hv => (hb v hv).1)
  · exact goSprint_no_char '<' (by decide) args (fun v hv => (hb v hv).2)

/-- C9 witness: `Fatal("shutdown")` writes `shutdown` and exits 1. -/
theorem fatal_bypass_witness :
    (log.Fatal [.str "shutdown"]).2 ≠ 0 ∧
    (log.Fatal [.str "shutdown"]).1 = goSprint [.str "shutdown"] ∧
    ('[' : Char) ∉ (log.Fatal [.str "shutdown"]).1.data ∧
    ('<' : Char) ∉ (log.Fatal [.str "shutdown"]).1.data :=
  fatal_bypass [.str "shutdown"] (by decide)

end LoggerSpec
